import Mathlib

/-!
Shallow embedding of the access-control and record-lifecycle core of the
"Blockchain Health Record" application (server/storage.ts and the HTTP
route handlers in server/routes).

JS `Map<number, T>` is embedded as an insertion-ordered association list
`List (Nat × T)`; `Map.get`, `Map.set`, `Map.delete` become `mapGet`,
`mapSet`, `mapDelete`.  Timestamps (`new Date()`) are abstract `Nat`
clock values supplied by the caller.  File-system side effects
(`fs.unlinkSync`, `fs.writeFileSync`) are out of the data model; the
best-effort file unlink in `deleteMedicalRecord` never aborts the
metadata deletion, so it is omitted.  String case-insensitive comparison
`a.toLowerCase() === b.toLowerCase()` becomes `ciEq`.
-/

namespace HealthRecord

/-- JS `s.toLowerCase()`, written structurally over the character list
(extensionally `String.toLower`). -/
def strToLower (s : String) : String :=
  ⟨s.data.map Char.toLower⟩

/-- `a.toLowerCase() === b.toLowerCase()` from the source. -/
def ciEq (a b : String) : Bool :=
  strToLower a == strToLower b

/-- Role enum from shared/schema.ts (`text("role", { enum: ["patient", "doctor"] })`). -/
inductive Role where
  | patient
  | doctor
deriving Repr, DecidableEq

/-- Duration enum from shared/schema.ts
(`enum: ["1-day", "7-days", "30-days", "permanent"]`). -/
inductive Duration where
  | oneDay
  | sevenDays
  | thirtyDays
  | permanent
deriving Repr, DecidableEq

/-- `User` from shared/schema.ts. -/
structure User where
  id : Nat
  address : String
  role : Role
  createdAt : Nat
deriving Repr, DecidableEq

/-- `MedicalRecord` from shared/schema.ts. -/
structure MedicalRecord where
  id : Nat
  title : String
  recordType : String
  recordDate : String
  patientAddress : String
  filePath : String
  fileHash : String
  transactionHash : String
  createdAt : Nat
deriving Repr, DecidableEq

/-- `Access` (access_permissions) from shared/schema.ts. -/
structure Access where
  id : Nat
  patientAddress : String
  doctorAddress : String
  recordIds : List Nat
  duration : Duration
  createdAt : Nat
deriving Repr, DecidableEq

/-- `Map.get(k)` on an insertion-ordered association list. -/
def mapGet (m : List (Nat × α)) (k : Nat) : Option α :=
  (m.find? (fun p => p.1 == k)).map (·.2)

/-- `Map.set(k, v)`: update in place if the key exists, else append. -/
def mapSet (m : List (Nat × α)) (k : Nat) (v : α) : List (Nat × α) :=
  if m.any (fun p => p.1 == k) then
    m.map (fun p => if p.1 == k then (k, v) else p)
  else
    m ++ [(k, v)]

/-- `Map.delete(k)` (dropping every entry with key `k`). -/
def mapDelete (m : List (Nat × α)) (k : Nat) : List (Nat × α) :=
  m.filter (fun p => p.1 != k)

/-- `Map.has(k)`. -/
def mapHas (m : List (Nat × α)) (k : Nat) : Bool :=
  m.any (fun p => p.1 == k)

/-- The fields of `MemStorage` (server/storage.ts). -/
structure MemStorage where
  users : List (Nat × User)
  medicalRecords : List (Nat × MedicalRecord)
  accessPermissions : List (Nat × Access)
  currentUserId : Nat
  currentRecordId : Nat
  currentAccessId : Nat
deriving Repr, DecidableEq

/-- The store as built by the constructor when no data file exists:
empty maps, all id counters at 1. -/
def emptyStorage : MemStorage :=
  { users := []
    medicalRecords := []
    accessPermissions := []
    currentUserId := 1
    currentRecordId := 1
    currentAccessId := 1 }

/-- `MemStorage.getUser`. -/
def getUser (st : MemStorage) (id : Nat) : Option User :=
  mapGet st.users id

/-- `MemStorage.getUserByAddress`: case-insensitive scan over the user values. -/
def getUserByAddress (st : MemStorage) (address : String) : Option User :=
  (st.users.map (·.2)).find? (fun user => ciEq user.address address)

/-- `MemStorage.createUser`. -/
def createUser (st : MemStorage) (address : String) (role : Role) (now : Nat) :
    User × MemStorage :=
  let id := st.currentUserId
  let user : User := { id := id, address := address, role := role, createdAt := now }
  (user, { st with users := mapSet st.users id user, currentUserId := id + 1 })

/-- `MemStorage.getMedicalRecord`. -/
def getMedicalRecord (st : MemStorage) (id : Nat) : Option MedicalRecord :=
  mapGet st.medicalRecords id

/-- `MemStorage.getMedicalRecordsByPatient`: case-insensitive filter on
`patientAddress`, in map insertion order. -/
def getMedicalRecordsByPatient (st : MemStorage) (patientAddress : String) :
    List MedicalRecord :=
  (st.medicalRecords.map (·.2)).filter
    (fun record => ciEq record.patientAddress patientAddress)

/-- Payload of `createMedicalRecord` (InsertMedicalRecord plus filePath);
the synthetic `fileHash` and `transactionHash` generated in the source from
the clock and randomness are supplied as inputs here. -/
structure InsertRecord where
  title : String
  recordType : String
  recordDate : String
  patientAddress : String
  filePath : String
  fileHash : String
  transactionHash : String
deriving Repr, DecidableEq

/-- `MemStorage.createMedicalRecord`. -/
def createMedicalRecord (st : MemStorage) (r : InsertRecord) (now : Nat) :
    MedicalRecord × MemStorage :=
  let id := st.currentRecordId
  let record : MedicalRecord :=
    { id := id
      title := r.title
      recordType := r.recordType
      recordDate := r.recordDate
      patientAddress := r.patientAddress
      filePath := r.filePath
      fileHash := r.fileHash
      transactionHash := r.transactionHash
      createdAt := now }
  (record, { st with medicalRecords := mapSet st.medicalRecords id record,
                     currentRecordId := id + 1 })

/-- The cascade in `deleteMedicalRecord`: every access permission whose
`recordIds` includes the deleted id is shrunk (the id filtered out) or, if
nothing remains, deleted. -/
def shrinkAccess (perms : List (Nat × Access)) (id : Nat) : List (Nat × Access) :=
  perms.filterMap (fun p =>
    if p.2.recordIds.contains id then
      let updatedRecordIds := p.2.recordIds.filter (fun recordId => recordId != id)
      if updatedRecordIds.isEmpty then
        none
      else
        some (p.1, { p.2 with recordIds := updatedRecordIds })
    else
      some p)

/-- `MemStorage.deleteMedicalRecord`: false if the id is unknown, else
cascade over the access permissions then remove the record. -/
def deleteMedicalRecord (st : MemStorage) (id : Nat) : Bool × MemStorage :=
  match mapGet st.medicalRecords id with
  | none => (false, st)
  | some _ =>
      (true, { st with
                 accessPermissions := shrinkAccess st.accessPermissions id
                 medicalRecords := mapDelete st.medicalRecords id })

/-- `MemStorage.getAccess`. -/
def getAccess (st : MemStorage) (id : Nat) : Option Access :=
  mapGet st.accessPermissions id

/-- `MemStorage.getAccessByPatient`. -/
def getAccessByPatient (st : MemStorage) (patientAddress : String) : List Access :=
  (st.accessPermissions.map (·.2)).filter
    (fun access => ciEq access.patientAddress patientAddress)

/-- `MemStorage.getAccessByDoctor`. -/
def getAccessByDoctor (st : MemStorage) (doctorAddress : String) : List Access :=
  (st.accessPermissions.map (·.2)).filter
    (fun access => ciEq access.doctorAddress doctorAddress)

/-- `MemStorage.createAccess`. -/
def createAccess (st : MemStorage) (patientAddress doctorAddress : String)
    (recordIds : List Nat) (duration : Duration) (now : Nat) :
    Access × MemStorage :=
  let id := st.currentAccessId
  let accessPermission : Access :=
    { id := id
      patientAddress := patientAddress
      doctorAddress := doctorAddress
      recordIds := recordIds
      duration := duration
      createdAt := now }
  (accessPermission,
   { st with accessPermissions := mapSet st.accessPermissions id accessPermission,
             currentAccessId := id + 1 })

/-- `MemStorage.revokeAccess`: unconditional removal by id, false if unknown. -/
def revokeAccess (st : MemStorage) (id : Nat) : Bool × MemStorage :=
  if mapHas st.accessPermissions id then
    (true, { st with accessPermissions := mapDelete st.accessPermissions id })
  else
    (false, st)

/-- JS `new Set(xs)` materialised as an array: first occurrences, in order
(string comparison is case-sensitive here, exactly as in the source). -/
def dedup (xs : List String) : List String :=
  xs.foldl (fun acc x => if acc.contains x then acc else acc ++ [x]) []

/-- `MemStorage.getAccessibleRecordsByDoctor`: the doctor's grants, and the
concatenation over the distinct patient addresses of those grants of each
patient's records. -/
def getAccessibleRecordsByDoctor (st : MemStorage) (doctorAddress : String) :
    List Access × List MedicalRecord :=
  let accessList := getAccessByDoctor st doctorAddress
  let patientAddresses := dedup (accessList.map (·.patientAddress))
  let records := (patientAddresses.map (fun p => getMedicalRecordsByPatient st p)).flatten
  (accessList, records)

/-- The access check performed by the view/download/delete record routes:
some grant of the doctor matches the record's patient case-insensitively
and lists the record id. -/
def hasAccess (st : MemStorage) (doctorAddress patientAddress : String)
    (recordId : Nat) : Bool :=
  (getAccessByDoctor st doctorAddress).any (fun access =>
    ciEq access.patientAddress patientAddress && access.recordIds.contains recordId)

/-- Error taxonomy of the HTTP surface (status codes 404/409/403/400/500). -/
inductive ApiError where
  | notFound
  | conflict
  | forbidden
  | invalidInput
  | internalError
deriving Repr, DecidableEq

/-- The session identity carried by the cookie (`req.session.user`). -/
structure SessionUser where
  address : String
  role : Role
deriving Repr, DecidableEq

/-- `POST /api/users`: 409 Conflict if the address is already registered
(case-insensitively), else create. -/
def routeCreateUser (st : MemStorage) (address : String) (role : Role) (now : Nat) :
    Except ApiError User × MemStorage :=
  match getUserByAddress st address with
  | some _ => (.error .conflict, st)
  | none =>
      let (user, st') := createUser st address role now
      (.ok user, st')

/-- `POST /api/access`: only patients, only for their own address; every
requested record id must appear among the patient's own record ids
(computed via the case-insensitive `getMedicalRecordsByPatient`), else 400;
otherwise `createAccess` stores the grant. -/
def routeCreateAccess (st : MemStorage) (sess : SessionUser)
    (doctorAddress : String) (recordIds : List Nat) (accessDuration : Duration)
    (patientAddress : String) (now : Nat) :
    Except ApiError Access × MemStorage :=
  if sess.role != Role.patient then
    (.error .forbidden, st)
  else if !ciEq sess.address patientAddress then
    (.error .forbidden, st)
  else
    let patientRecords := getMedicalRecordsByPatient st patientAddress
    let patientRecordIds := patientRecords.map (·.id)
    let invalidRecords := recordIds.filter (fun id => !patientRecordIds.contains id)
    if !invalidRecords.isEmpty then
      (.error .invalidInput, st)
    else
      let (access, st') := createAccess st patientAddress doctorAddress recordIds
        accessDuration now
      (.ok access, st')

/-- `GET /api/records?patientAddress=`: a patient sees only their own
records; a doctor sees all of the patient's records as soon as ANY of the
doctor's grants names that patient (no per-record-id or expiry check). -/
def routeGetRecords (st : MemStorage) (sess : SessionUser) (patientAddress : String) :
    Except ApiError (List MedicalRecord) :=
  match sess.role with
  | .patient =>
      if !ciEq sess.address patientAddress then
        .error .forbidden
      else
        .ok (getMedicalRecordsByPatient st patientAddress)
  | .doctor =>
      let accessList := getAccessByDoctor st sess.address
      if accessList.any (fun access => ciEq access.patientAddress patientAddress) then
        .ok (getMedicalRecordsByPatient st patientAddress)
      else
        .error .forbidden

/-- `DELETE /api/records/:id`: 404 if unknown; a patient may delete their
own record, a doctor any record some grant of theirs covers; then
`deleteMedicalRecord`. -/
def routeDeleteRecord (st : MemStorage) (sess : SessionUser) (recordId : Nat) :
    Except ApiError Unit × MemStorage :=
  match getMedicalRecord st recordId with
  | none => (.error .notFound, st)
  | some record =>
      let allowed :=
        match sess.role with
        | .patient => ciEq sess.address record.patientAddress
        | .doctor =>
            (getAccessByDoctor st sess.address).any (fun access =>
              ciEq access.patientAddress record.patientAddress &&
              access.recordIds.contains record.id)
      if allowed then
        let (success, st') := deleteMedicalRecord st recordId
        if success then (.ok (), st') else (.error .internalError, st')
      else
        (.error .forbidden, st)

/-- The JSON document written by `saveData`: the three maps, entry by
entry (`Object.fromEntries`).  JSON object keys stringify the numeric ids
and `Number(id)` restores them on load; that round trip is the identity on
ids, so the keys are kept as `Nat` here. -/
structure DataFile where
  users : List (Nat × User)
  medicalRecords : List (Nat × MedicalRecord)
  accessPermissions : List (Nat × Access)
deriving Repr, DecidableEq

/-- `MemStorage.saveData` (minus the file write itself): the serialized
document. -/
def saveData (st : MemStorage) : DataFile :=
  { users := st.users
    medicalRecords := st.medicalRecords
    accessPermissions := st.accessPermissions }

/-- `Math.max(...keys, 0)` over the keys of a map. -/
def maxKeys (m : List (Nat × α)) : Nat :=
  (m.map (·.1)).foldr max 0

/-- `MemStorage` construction plus `loadData`: an absent data file leaves
the empty stores with all counters at 1; otherwise each collection is
rebuilt from the document and its counter set to `Math.max(...keys, 0) + 1`
(after `JSON.stringify` the three fields are always present, and an empty
object is truthy in JS, so every branch is taken). -/
def loadData (file : Option DataFile) : MemStorage :=
  match file with
  | none => emptyStorage
  | some data =>
      { users := data.users
        medicalRecords := data.medicalRecords
        accessPermissions := data.accessPermissions
        currentUserId := maxKeys data.users + 1
        currentRecordId := maxKeys data.medicalRecords + 1
        currentAccessId := maxKeys data.accessPermissions + 1 }

/-- The mutating operations of the store, as invocable through the code:
the four store mutations used directly, plus the grant-creation HTTP route
(the only caller of `createAccess` in the server). -/
inductive Op where
  | createUser (address : String) (role : Role) (now : Nat)
  | createRecord (r : InsertRecord) (now : Nat)
  | deleteRecord (id : Nat)
  | revokeAccess (id : Nat)
  | createAccess (patientAddress doctorAddress : String) (recordIds : List Nat)
      (duration : Duration) (now : Nat)
  | routeGrant (sess : SessionUser) (doctorAddress : String) (recordIds : List Nat)
      (duration : Duration) (patientAddress : String) (now : Nat)

/-- State transition of one operation (results discarded; failed route
calls leave the state unchanged). -/
def applyOp (st : MemStorage) (op : Op) : MemStorage :=
  match op with
  | .createUser address role now => (createUser st address role now).2
  | .createRecord r now => (createMedicalRecord st r now).2
  | .deleteRecord id => (deleteMedicalRecord st id).2
  | .revokeAccess id => (revokeAccess st id).2
  | .createAccess p d ids dur now => (createAccess st p d ids dur now).2
  | .routeGrant sess d ids dur p now =>
      (routeCreateAccess st sess d ids dur p now).2

/-- States reachable from the freshly constructed empty store by a
sequence of operations. -/
def Reachable (st : MemStorage) : Prop :=
  ∃ ops : List Op, st = ops.foldl applyOp emptyStorage

/-- An operation that, if it is a grant creation, supplies a non-empty
record id list. -/
def grantIdsNonempty : Op → Bool
  | .createAccess _ _ ids _ _ => !ids.isEmpty
  | .routeGrant _ _ ids _ _ _ => !ids.isEmpty
  | _ => true

/-- No stored grant has an empty record id set. -/
def NoEmptyGrants (st : MemStorage) : Prop :=
  ∀ p ∈ st.accessPermissions, p.2.recordIds ≠ []

/-! ### Helper lemmas -/

theorem ciEq_refl (s : String) : ciEq s s = true := by
  simp [ciEq]

theorem ciEq_of_toLower_eq {a b : String} (h : strToLower a = strToLower b) :
    ciEq a b = true := by
  simp [ciEq, h]

theorem mem_mapSet_self (m : List (Nat × α)) (k : Nat) (v : α) :
    (k, v) ∈ mapSet m k v := by
  unfold mapSet
  split
  · rename_i h
    rw [List.any_eq_true] at h
    obtain ⟨p, hp, hk⟩ := h
    rw [List.mem_map]
    exact ⟨p, hp, by simp [hk]⟩
  · simp

theorem mem_of_mem_mapSet {m : List (Nat × α)} {k : Nat} {v : α} {p : Nat × α}
    (h : p ∈ mapSet m k v) : p ∈ m ∨ p = (k, v) := by
  unfold mapSet at h
  split at h
  · rw [List.mem_map] at h
    obtain ⟨q, hq, hpq⟩ := h
    by_cases hk : (q.1 == k) = true
    · right; rw [← hpq]; simp [hk]
    · left; rw [← hpq]; simp [hk]; exact hq
  · rcases List.mem_append.1 h with h | h
    · exact Or.inl h
    · right; simpa using h

theorem mapSet_eq_append {m : List (Nat × α)} {k : Nat} (v : α)
    (h : mapHas m k = false) : mapSet m k v = m ++ [(k, v)] := by
  unfold mapSet
  unfold mapHas at h
  rw [h]
  simp

theorem mapDelete_append_fresh {m : List (Nat × α)} {k : Nat} (v : α)
    (h : ∀ p ∈ m, p.1 ≠ k) : mapDelete (m ++ [(k, v)]) k = m := by
  unfold mapDelete
  rw [List.filter_append]
  have h1 : m.filter (fun p => p.1 != k) = m := by
    rw [List.filter_eq_self]
    intro p hp
    simpa using h p hp
  have h2 : [(k, v)].filter (fun p => (p.1 != k)) = ([] : List (Nat × α)) := by
    simp
  rw [h1, h2, List.append_nil]

theorem mapHas_eq_false_of_fresh {m : List (Nat × α)} {k : Nat}
    (h : ∀ p ∈ m, p.1 ≠ k) : mapHas m k = false := by
  unfold mapHas
  rw [List.any_eq_false]
  intro p hp
  simpa using h p hp

theorem mapHas_append_self (m : List (Nat × α)) (k : Nat) (v : α) :
    mapHas (m ++ [(k, v)]) k = true := by
  unfold mapHas
  rw [List.any_append]
  simp

theorem mapGet_mapDelete_self (m : List (Nat × α)) (k : Nat) :
    mapGet (mapDelete m k) k = none := by
  unfold mapGet mapDelete
  rw [Option.map_eq_none', List.find?_eq_none]
  intro p hp
  have := (List.mem_filter.1 hp).2
  simpa using this

/-- `hasAccess` reads only the access-permission map. -/
theorem hasAccess_congr {st₁ st₂ : MemStorage}
    (h : st₁.accessPermissions = st₂.accessPermissions)
    (D P : String) (i : Nat) : hasAccess st₁ D P i = hasAccess st₂ D P i := by
  simp [hasAccess, getAccessByDoctor, h]

/-- Semantic reading of `hasAccess`: some stored grant matches the doctor
and the patient case-insensitively and lists the record id. -/
theorem hasAccess_iff (st : MemStorage) (D P : String) (i : Nat) :
    hasAccess st D P i = true ↔
      ∃ a ∈ st.accessPermissions.map (·.2),
        ciEq a.doctorAddress D = true ∧ ciEq a.patientAddress P = true ∧
        i ∈ a.recordIds := by
  simp only [hasAccess, getAccessByDoctor, List.any_eq_true, List.mem_filter,
    Bool.and_eq_true, List.contains, List.elem_eq_mem, decide_eq_true_eq]
  constructor
  · rintro ⟨a, ⟨ha, hd⟩, hp, hi⟩
    exact ⟨a, ha, hd, hp, hi⟩
  · rintro ⟨a, ha, hd, hp, hi⟩
    exact ⟨a, ⟨ha, hd⟩, hp, hi⟩

theorem mem_dedup {xs : List String} {x : String} : x ∈ dedup xs ↔ x ∈ xs := by
  have key : ∀ (ys : List String) (acc : List String),
      x ∈ ys.foldl (fun acc y => if acc.contains y then acc else acc ++ [y]) acc ↔
        x ∈ acc ∨ x ∈ ys := by
    intro ys
    induction ys with
    | nil => intro acc; simp
    | cons y ys ih =>
        intro acc
        simp only [List.foldl_cons]
        by_cases hc : acc.contains y = true
        · rw [if_pos hc, ih]
          constructor
          · rintro (h | h)
            · exact Or.inl h
            · exact Or.inr (List.mem_cons_of_mem _ h)
          · rintro (h | h)
            · exact Or.inl h
            · rcases List.mem_cons.1 h with rfl | h
              · exact Or.inl (by simpa using hc)
              · exact Or.inr h
        · rw [if_neg hc, ih]
          constructor
          · rintro (h | h)
            · rcases List.mem_append.1 h with h | h
              · exact Or.inl h
              · simp at h
                exact Or.inr (by simp [h])
            · exact Or.inr (List.mem_cons_of_mem _ h)
          · rintro (h | h)
            · exact Or.inl (List.mem_append_left _ h)
            · rcases List.mem_cons.1 h with rfl | h
              · exact Or.inl (by simp)
              · exact Or.inr h
  unfold dedup
  rw [key]
  simp

/-- `Math.max(...keys, 0)` bounds every key. -/
theorem le_maxKeys {m : List (Nat × α)} {p : Nat × α} (hp : p ∈ m) :
    p.1 ≤ maxKeys m := by
  unfold maxKeys
  induction m with
  | nil => cases hp
  | cons q m ih =>
      rcases List.mem_cons.1 hp with rfl | hp
      · simp [List.foldr_cons, le_max_iff]
      · simp only [List.map_cons, List.foldr_cons]
        exact le_trans (ih hp) (le_max_right _ _)

/-- On a non-empty map, `Math.max(...keys, 0)` is attained by some key. -/
theorem maxKeys_mem {m : List (Nat × α)} (h : m ≠ []) :
    ∃ p ∈ m, maxKeys m = p.1 := by
  unfold maxKeys
  induction m with
  | nil => exact absurd rfl h
  | cons q m ih =>
      by_cases hm : m = []
      · subst hm
        exact ⟨q, by simp⟩
      · obtain ⟨p, hp, hmax⟩ := ih hm
        simp only [List.map_cons, List.foldr_cons]
        rcases max_choice q.1 ((m.map (·.1)).foldr max 0) with hc | hc
        · exact ⟨q, List.mem_cons_self _ _, hc⟩
        · exact ⟨p, List.mem_cons_of_mem _ hp, by rw [hc]; exact hmax⟩

/-- After creating a grant in a state whose next access id is fresh and
then revoking that grant by its id, the stored grants are exactly those of
the original state. -/
theorem createAccess_revoke_perms (st : MemStorage) (P D : String)
    (ids : List Nat) (dur : Duration) (now : Nat)
    (hfresh : ∀ p ∈ st.accessPermissions, p.1 ≠ st.currentAccessId) :
    (revokeAccess (createAccess st P D ids dur now).2
      (createAccess st P D ids dur now).1.id).2.accessPermissions =
      st.accessPermissions := by
  have h1 : mapHas st.accessPermissions st.currentAccessId = false :=
    mapHas_eq_false_of_fresh hfresh
  simp only [createAccess, revokeAccess]
  rw [mapSet_eq_append _ h1, mapHas_append_self]
  simp only [if_true]
  exact mapDelete_append_fresh _ hfresh

/-! ### Claim theorems -/

/-- A state built by the application's own operations: patient `0xp`
uploads record 1 and grants doctor `0xd` access to `[1]`. -/
def grantRevokeState0 : MemStorage :=
  applyOp
    (applyOp emptyStorage
      (Op.createRecord
        { title := "Lab A", recordType := "lab-result", recordDate := "2024-01-01",
          patientAddress := "0xp", filePath := "f", fileHash := "h",
          transactionHash := "x" } 0))
    (Op.routeGrant ⟨"0xp", Role.patient⟩ "0xd" [1] Duration.permanent "0xp" 0)

/-- The patient grants `0xd` access to `[1]` a second time. -/
def grantRevokeGranted : Except ApiError Access × MemStorage :=
  routeCreateAccess grantRevokeState0 ⟨"0xp", Role.patient⟩ "0xd" [1]
    Duration.sevenDays "0xp" 5

/-- C1 is false as stated: in a state already holding a grant for
(`0xd`, `0xp`) covering record 1, a second `grant("0xp", "0xd", [1], 7-days)`
succeeds (grant id 2) and revoking that grant's id succeeds, yet
`hasAccess("0xd", "0xp", 1)` is still true afterwards — not false as the
claim requires. -/
theorem C1_counterexample :
    grantRevokeGranted.1.toOption = some
      { id := 2, patientAddress := "0xp", doctorAddress := "0xd",
        recordIds := [1], duration := Duration.sevenDays, createdAt := 5 } ∧
    (revokeAccess grantRevokeGranted.2 2).1 = true ∧
    hasAccess (revokeAccess grantRevokeGranted.2 2).2 "0xd" "0xp" 1 = true := by
  decide

/-- C1 (amended): `hasAccess(D, P, i)` is true iff some stored grant whose
doctor address equals `D` and whose patient address equals `P` (both
case-insensitively) contains `i` in its record ids; it is true immediately
after `grant(P, D, ids, dur)` with `i ∈ ids`; and after revoking that
grant's id it returns to its pre-grant value — in particular false exactly
when no other grant for the pair contains `i` (the freshness hypothesis on
the next access id holds in every state the store itself builds). -/
theorem C1_hasAccess_grant_revoke (st : MemStorage) (D P : String) (i : Nat) :
    (hasAccess st D P i = true ↔
      ∃ a ∈ st.accessPermissions.map (·.2),
        ciEq a.doctorAddress D = true ∧ ciEq a.patientAddress P = true ∧
        i ∈ a.recordIds)
    ∧ (∀ (ids : List Nat) (dur : Duration) (now : Nat), i ∈ ids →
        hasAccess (createAccess st P D ids dur now).2 D P i = true)
    ∧ (∀ (ids : List Nat) (dur : Duration) (now : Nat),
        (∀ p ∈ st.accessPermissions, p.1 ≠ st.currentAccessId) →
        hasAccess (revokeAccess (createAccess st P D ids dur now).2
          (createAccess st P D ids dur now).1.id).2 D P i =
          hasAccess st D P i) := by
  refine ⟨hasAccess_iff st D P i, ?_, ?_⟩
  · intro ids dur now hi
    rw [hasAccess_iff]
    refine ⟨(createAccess st P D ids dur now).1, ?_, ?_, ?_, ?_⟩
    · rw [List.mem_map]
      exact ⟨(st.currentAccessId, (createAccess st P D ids dur now).1),
        mem_mapSet_self _ _ _, rfl⟩
    · exact ciEq_refl D
    · exact ciEq_refl P
    · exact hi
  · intro ids dur now hfresh
    exact hasAccess_congr (createAccess_revoke_perms st P D ids dur now hfresh) D P i

/-- Witness for the amended C1 at the empty store. -/
theorem C1_hasAccess_grant_revoke_witness :
    (1 ∈ [1]) ∧
    hasAccess (createAccess emptyStorage "0xp" "0xd" [1] Duration.oneDay 0).2
      "0xd" "0xp" 1 = true ∧
    (∀ p ∈ emptyStorage.accessPermissions, p.1 ≠ emptyStorage.currentAccessId) ∧
    hasAccess (revokeAccess (createAccess emptyStorage "0xp" "0xd" [1]
        Duration.oneDay 0).2
      (createAccess emptyStorage "0xp" "0xd" [1] Duration.oneDay 0).1.id).2
      "0xd" "0xp" 1 = hasAccess emptyStorage "0xd" "0xp" 1 :=
  ⟨by decide,
   (C1_hasAccess_grant_revoke emptyStorage "0xd" "0xp" 1).2.1 [1] Duration.oneDay 0
     (by decide),
   by decide,
   (C1_hasAccess_grant_revoke emptyStorage "0xd" "0xp" 1).2.2 [1] Duration.oneDay 0
     (by decide)⟩

/-- C2: the access decision of `hasAccess(D, P, i)` does not depend on any
grant's `duration` or `createdAt`: rewriting those two fields arbitrarily in
every stored grant leaves `hasAccess` unchanged, so an expired but
non-revoked grant authorizes exactly as an unexpired one. -/
theorem C2_hasAccess_ignores_expiry (st : MemStorage) (D P : String) (i : Nat)
    (f : Access → Duration) (g : Access → Nat) :
    hasAccess
      { st with accessPermissions :=
          st.accessPermissions.map (fun p =>
            (p.1, { p.2 with duration := f p.2, createdAt := g p.2 })) }
      D P i = hasAccess st D P i := by
  simp only [hasAccess, getAccessByDoctor]
  generalize st.accessPermissions = l
  induction l with
  | nil => rfl
  | cons p l ih =>
      simp only [List.map_cons, List.filter_cons]
      by_cases hd : ciEq p.2.doctorAddress D = true
      · simpa [hd] using congrArg (_ || ·) ih
      · simpa [hd] using ih

/-- C3: when record `i` is stored, `deleteMedicalRecord i` returns true,
afterwards the record is absent and no grant's record ids contain `i`;
every grant whose removal of `i` would empty its record ids is itself gone
(grant ids distinct, as the store keeps them), and every other grant
survives with exactly `i` filtered out of its record ids.  When `i` is not
stored, the call returns false and leaves the whole store unchanged. -/
theorem C3_deleteMedicalRecord_cascade (st : MemStorage) (i : Nat)
    (hk : (st.accessPermissions.map Prod.fst).Nodup) :
    (∀ R, mapGet st.medicalRecords i = some R →
      (deleteMedicalRecord st i).1 = true ∧
      mapGet (deleteMedicalRecord st i).2.medicalRecords i = none ∧
      (∀ p ∈ (deleteMedicalRecord st i).2.accessPermissions,
        i ∉ p.2.recordIds) ∧
      (∀ p ∈ st.accessPermissions, i ∈ p.2.recordIds →
        p.2.recordIds.filter (fun r => r != i) = [] →
        ∀ a, (p.1, a) ∉ (deleteMedicalRecord st i).2.accessPermissions) ∧
      (∀ p ∈ st.accessPermissions,
        p.2.recordIds.filter (fun r => r != i) ≠ [] →
        (p.1, { p.2 with recordIds := p.2.recordIds.filter (fun r => r != i) }) ∈
          (deleteMedicalRecord st i).2.accessPermissions))
    ∧ (mapGet st.medicalRecords i = none →
        deleteMedicalRecord st i = (false, st)) := by
  have contains_of_mem : ∀ (l : List Nat) (x : Nat), x ∈ l → l.contains x = true := by
    intro l x hx
    simp only [List.contains, List.elem_eq_mem, decide_eq_true_eq]
    exact hx
  constructor
  · intro R hR
    have hdel : deleteMedicalRecord st i =
        (true, { st with accessPermissions := shrinkAccess st.accessPermissions i,
                         medicalRecords := mapDelete st.medicalRecords i }) := by
      simp only [deleteMedicalRecord, hR]
    rw [hdel]
    refine ⟨rfl, mapGet_mapDelete_self _ _, ?_, ?_, ?_⟩
    · -- no surviving grant still lists i
      intro p hp
      rw [shrinkAccess, List.mem_filterMap] at hp
      obtain ⟨q, hq, hfq⟩ := hp
      by_cases hc : q.2.recordIds.contains i = true
      · rw [if_pos hc] at hfq
        by_cases he : (q.2.recordIds.filter (fun r => r != i)).isEmpty = true
        · rw [if_pos he] at hfq; cases hfq
        · rw [if_neg he] at hfq
          obtain rfl := Option.some.inj hfq
          intro hmem
          have := (List.mem_filter.1 hmem).2
          simp at this
      · rw [if_neg hc] at hfq
        obtain rfl := Option.some.inj hfq
        intro hmem
        exact hc (contains_of_mem _ _ hmem)
    · -- a grant emptied by the removal is gone
      intro p hp hi hnil a hmem
      rw [shrinkAccess, List.mem_filterMap] at hmem
      obtain ⟨q, hq, hfq⟩ := hmem
      have hkey : q.1 = p.1 := by
        by_cases hc : q.2.recordIds.contains i = true
        · rw [if_pos hc] at hfq
          by_cases he : (q.2.recordIds.filter (fun r => r != i)).isEmpty = true
          · rw [if_pos he] at hfq; cases hfq
          · rw [if_neg he] at hfq
            have h2 := congrArg Prod.fst (Option.some.inj hfq)
            exact h2
        · rw [if_neg hc] at hfq
          have h2 := congrArg Prod.fst (Option.some.inj hfq)
          exact h2
      have hqp : q = p := List.inj_on_of_nodup_map hk hq hp hkey
      subst hqp
      have hc : q.2.recordIds.contains i = true := contains_of_mem _ _ hi
      rw [if_pos hc] at hfq
      have he : (q.2.recordIds.filter (fun r => r != i)).isEmpty = true := by
        rw [hnil]; rfl
      rw [if_pos he] at hfq
      cases hfq
    · -- other grants survive with i filtered out
      intro p hp hne
      rw [shrinkAccess, List.mem_filterMap]
      refine ⟨p, hp, ?_⟩
      by_cases hc : p.2.recordIds.contains i = true
      · have he : (p.2.recordIds.filter (fun r => r != i)).isEmpty = false := by
          cases hfe : (p.2.recordIds.filter (fun r => r != i)) with
          | nil => exact absurd hfe hne
          | cons x xs => rfl
        simp only [if_pos hc, he, Bool.false_eq_true, if_false]
      · have hfeq : p.2.recordIds.filter (fun r => r != i) = p.2.recordIds := by
          rw [List.filter_eq_self]
          intro r hr
          have hri : r ≠ i := by
            intro hri
            subst hri
            exact hc (contains_of_mem _ _ hr)
          simpa using hri
        rw [if_neg hc]
        obtain ⟨k, a⟩ := p
        simp only at hfeq ⊢
        rw [hfeq]
  · intro hnone
    simp only [deleteMedicalRecord, hnone]

/-- Record 1 of patient `0xp`, used to exercise the deletion cascade. -/
def cascadeRec1 : MedicalRecord :=
  { id := 1, title := "Lab A", recordType := "lab-result", recordDate := "2024-01-01",
    patientAddress := "0xp", filePath := "f1", fileHash := "h1",
    transactionHash := "t1", createdAt := 0 }

/-- Record 2 of patient `0xp`. -/
def cascadeRec2 : MedicalRecord :=
  { id := 2, title := "Lab B", recordType := "lab-result", recordDate := "2024-01-02",
    patientAddress := "0xp", filePath := "f2", fileHash := "h2",
    transactionHash := "t2", createdAt := 1 }

/-- A store holding records 1 and 2 and two grants: one covering only
record 1 (emptied by deleting it) and one covering both (shrunk). -/
def cascadeState : MemStorage :=
  { users := []
    medicalRecords := [(1, cascadeRec1), (2, cascadeRec2)]
    accessPermissions :=
      [(1, { id := 1, patientAddress := "0xp", doctorAddress := "0xd",
             recordIds := [1], duration := Duration.permanent, createdAt := 2 }),
       (2, { id := 2, patientAddress := "0xp", doctorAddress := "0xd",
             recordIds := [1, 2], duration := Duration.sevenDays, createdAt := 3 })]
    currentUserId := 1
    currentRecordId := 3
    currentAccessId := 3 }

/-- Witness for C3 at a concrete store. -/
theorem C3_deleteMedicalRecord_cascade_witness :
    (cascadeState.accessPermissions.map Prod.fst).Nodup ∧
    mapGet cascadeState.medicalRecords 1 = some cascadeRec1 ∧
    (deleteMedicalRecord cascadeState 1).1 = true ∧
    mapGet (deleteMedicalRecord cascadeState 1).2.medicalRecords 1 = none :=
  ⟨by decide, by decide,
   ((C3_deleteMedicalRecord_cascade cascadeState 1 (by decide)).1 cascadeRec1
     (by decide)).1,
   ((C3_deleteMedicalRecord_cascade cascadeState 1 (by decide)).1 cascadeRec1
     (by decide)).2.1⟩

/-- C5: for a patient session matching `P`, `grant(P, D, ids, dur)` fails
with InvalidInput and leaves the store unchanged whenever some id in `ids`
is not the id of a record returned by the case-insensitive
`getMedicalRecordsByPatient P`; when every id is owned, the call succeeds
and stores a new grant carrying exactly the requested fields. -/
theorem C5_grant_requires_ownership (st : MemStorage) (sess : SessionUser)
    (D : String) (ids : List Nat) (dur : Duration) (P : String) (now : Nat)
    (hrole : sess.role = Role.patient) (haddr : ciEq sess.address P = true) :
    ((∃ i ∈ ids, i ∉ (getMedicalRecordsByPatient st P).map (·.id)) →
      routeCreateAccess st sess D ids dur P now =
        (Except.error ApiError.invalidInput, st))
    ∧ ((∀ i ∈ ids, i ∈ (getMedicalRecordsByPatient st P).map (·.id)) →
      routeCreateAccess st sess D ids dur P now =
        (Except.ok (createAccess st P D ids dur now).1,
         (createAccess st P D ids dur now).2) ∧
      (createAccess st P D ids dur now).1.patientAddress = P ∧
      (createAccess st P D ids dur now).1.doctorAddress = D ∧
      (createAccess st P D ids dur now).1.recordIds = ids ∧
      (createAccess st P D ids dur now).1.duration = dur ∧
      (st.currentAccessId, (createAccess st P D ids dur now).1) ∈
        (createAccess st P D ids dur now).2.accessPermissions) := by
  have hrole' : (sess.role != Role.patient) = false := by
    rw [hrole]; rfl
  have haddr' : (!ciEq sess.address P) = false := by
    rw [haddr]; rfl
  constructor
  · rintro ⟨i, hi, hni⟩
    have hbad : (ids.filter (fun id =>
        !((getMedicalRecordsByPatient st P).map (·.id)).contains id)) ≠ [] := by
      intro hnil
      have : i ∈ ids.filter (fun id =>
          !((getMedicalRecordsByPatient st P).map (·.id)).contains id) := by
        rw [List.mem_filter]
        refine ⟨hi, ?_⟩
        simp only [List.contains, List.elem_eq_mem, decide_eq_true_eq,
          Bool.not_eq_true']
        simpa using hni
      rw [hnil] at this
      cases this
    have hbad' : (ids.filter (fun id =>
        !((getMedicalRecordsByPatient st P).map (·.id)).contains id)).isEmpty
          = false := by
      cases hfe : ids.filter (fun id =>
          !((getMedicalRecordsByPatient st P).map (·.id)).contains id) with
      | nil => exact absurd hfe hbad
      | cons x xs => rfl
    simp only [routeCreateAccess, hrole', haddr', hbad', Bool.false_eq_true,
      if_false, Bool.not_false, if_true]
  · intro hall
    have hgood : (ids.filter (fun id =>
        !((getMedicalRecordsByPatient st P).map (·.id)).contains id)) = [] := by
      rw [List.filter_eq_nil_iff]
      intro i hi
      simp only [List.contains, List.elem_eq_mem, decide_eq_true_eq,
        Bool.not_eq_true', Bool.not_eq_false]
      simpa using hall i hi
    refine ⟨?_, rfl, rfl, rfl, rfl, mem_mapSet_self _ _ _⟩
    simp only [routeCreateAccess, hrole', haddr', hgood, Bool.false_eq_true,
      if_false, Bool.not_false, if_true, List.isEmpty_nil, Bool.not_true]

/-- Witness for C5: in a store where `0xp` owns only record 1, granting
`[3]` fails with InvalidInput and granting `[1]` stores the grant. -/
theorem C5_grant_requires_ownership_witness :
    (SessionUser.mk "0xP" Role.patient).role = Role.patient ∧
    ciEq (SessionUser.mk "0xP" Role.patient).address "0xp" = true ∧
    (∃ i ∈ [3], i ∉ (getMedicalRecordsByPatient cascadeState "0xp").map (·.id)) ∧
    routeCreateAccess cascadeState ⟨"0xP", Role.patient⟩ "0xd" [3]
      Duration.oneDay "0xp" 9 = (Except.error ApiError.invalidInput, cascadeState) :=
  ⟨rfl, by decide, by decide,
   (C5_grant_requires_ownership cascadeState ⟨"0xP", Role.patient⟩ "0xd" [3]
      Duration.oneDay "0xp" 9 rfl (by decide)).1 (by decide)⟩

/-- C6: `getAccessibleRecordsByDoctor D` returns exactly the grants whose
doctor address matches `D` case-insensitively, and exactly those records
owned (case-insensitively) by some patient address appearing in those
grants — with no filtering by the grants' record id sets and none by
expiry. -/
theorem C6_accessibleRecordsForDoctor (st : MemStorage) (D : String) :
    (∀ a, a ∈ (getAccessibleRecordsByDoctor st D).1 ↔
        a ∈ st.accessPermissions.map (·.2) ∧ ciEq a.doctorAddress D = true)
    ∧ (∀ r, r ∈ (getAccessibleRecordsByDoctor st D).2 ↔
        ∃ a, a ∈ st.accessPermissions.map (·.2) ∧ ciEq a.doctorAddress D = true ∧
          r ∈ st.medicalRecords.map (·.2) ∧
          ciEq r.patientAddress a.patientAddress = true) := by
  constructor
  · intro a
    show a ∈ getAccessByDoctor st D ↔ _
    simp [getAccessByDoctor, List.mem_filter]
  · intro r
    show r ∈ (((dedup ((getAccessByDoctor st D).map (·.patientAddress))).map
        (fun p => getMedicalRecordsByPatient st p)).flatten) ↔ _
    rw [List.mem_flatten]
    constructor
    · rintro ⟨l, hl, hr⟩
      rw [List.mem_map] at hl
      obtain ⟨addr, haddr, rfl⟩ := hl
      rw [mem_dedup, List.mem_map] at haddr
      obtain ⟨a, ha, rfl⟩ := haddr
      rw [getAccessByDoctor, List.mem_filter] at ha
      rw [getMedicalRecordsByPatient, List.mem_filter] at hr
      exact ⟨a, ha.1, ha.2, hr.1, hr.2⟩
    · rintro ⟨a, ha, hd, hr, hp⟩
      refine ⟨getMedicalRecordsByPatient st a.patientAddress, ?_, ?_⟩
      · rw [List.mem_map]
        refine ⟨a.patientAddress, ?_, rfl⟩
        rw [mem_dedup, List.mem_map]
        refine ⟨a, ?_, rfl⟩
        rw [getAccessByDoctor, List.mem_filter]
        exact ⟨ha, hd⟩
      · rw [getMedicalRecordsByPatient, List.mem_filter]
        exact ⟨hr, hp⟩

/-- C7: once `register(A, r)` has succeeded, registering any address equal
to `A` up to letter case fails with Conflict and leaves the user store (and
the whole state) unchanged. -/
theorem C7_register_conflict (st : MemStorage) (A : String) (r : Role) (now : Nat)
    (u : User) (st2 : MemStorage)
    (h : routeCreateUser st A r now = (Except.ok u, st2)) :
    ∀ (A' : String) (r' : Role) (now' : Nat), strToLower A' = strToLower A →
      routeCreateUser st2 A' r' now' = (Except.error ApiError.conflict, st2) := by
  intro A' r' now' hci
  cases hfind : getUserByAddress st A with
  | some v =>
      simp only [routeCreateUser, hfind] at h
      exact absurd (congrArg Prod.fst h) (by simp)
  | none =>
      simp only [routeCreateUser, hfind] at h
      have h2 : (createUser st A r now).2 = st2 := congrArg Prod.snd h
      subst h2
      have hmem : (createUser st A r now).1 ∈
          (createUser st A r now).2.users.map (·.2) := by
        rw [List.mem_map]
        exact ⟨(st.currentUserId, (createUser st A r now).1),
          mem_mapSet_self _ _ _, rfl⟩
      have hfound : (getUserByAddress (createUser st A r now).2 A').isSome = true := by
        rw [getUserByAddress, List.find?_isSome]
        refine ⟨(createUser st A r now).1, hmem, ?_⟩
        show ciEq A A' = true
        exact ciEq_of_toLower_eq hci.symm
      obtain ⟨v', hv'⟩ := Option.isSome_iff_exists.1 hfound
      simp only [routeCreateUser, hv']

/-- The user stored by a first successful registration of `0xAb`. -/
def registeredUser : User :=
  { id := 1, address := "0xAb", role := Role.patient, createdAt := 0 }

/-- The store after registering `0xAb` into the empty store. -/
def registeredState : MemStorage :=
  { users := [(1, registeredUser)]
    medicalRecords := []
    accessPermissions := []
    currentUserId := 2
    currentRecordId := 1
    currentAccessId := 1 }

/-- Witness for C7: registering `0xAb` succeeds, and re-registering the
case variant `0xaB` then fails with Conflict, state unchanged. -/
theorem C7_register_conflict_witness :
    routeCreateUser emptyStorage "0xAb" Role.patient 0 =
      (Except.ok registeredUser, registeredState) ∧
    strToLower "0xaB" = strToLower "0xAb" ∧
    routeCreateUser registeredState "0xaB" Role.doctor 1 =
      (Except.error ApiError.conflict, registeredState) :=
  ⟨rfl, by decide,
   C7_register_conflict emptyStorage "0xAb" Role.patient 0 registeredUser
     registeredState rfl "0xaB" Role.doctor 1 (by decide)⟩

/-- C9: for a doctor session, as soon as ANY grant of the doctor names the
patient (case-insensitively) — with no condition on its record ids or
expiry — the record listing returns exactly every record owned by that
patient, including records no grant of the doctor references. -/
theorem C9_doctor_sees_all_patient_records (st : MemStorage) (sess : SessionUser)
    (P : String) (a : Access)
    (hrole : sess.role = Role.doctor)
    (ha : a ∈ st.accessPermissions.map (·.2))
    (had : ciEq a.doctorAddress sess.address = true)
    (hap : ciEq a.patientAddress P = true) :
    routeGetRecords st sess P = Except.ok (getMedicalRecordsByPatient st P) ∧
    ∀ r, r ∈ getMedicalRecordsByPatient st P ↔
      (r ∈ st.medicalRecords.map (·.2) ∧ ciEq r.patientAddress P = true) := by
  constructor
  · have hany : (getAccessByDoctor st sess.address).any
        (fun access => ciEq access.patientAddress P) = true := by
      rw [List.any_eq_true]
      refine ⟨a, ?_, hap⟩
      rw [getAccessByDoctor, List.mem_filter]
      exact ⟨ha, had⟩
    simp only [routeGetRecords, hrole, hany, if_true]
  · intro r
    simp [getMedicalRecordsByPatient, List.mem_filter]

/-- Witness for C9: doctor `0xD` holds a grant naming `0xp` with record ids
`[1]` only, yet the listing returns all of `0xp`'s records. -/
theorem C9_doctor_sees_all_patient_records_witness :
    (SessionUser.mk "0xD" Role.doctor).role = Role.doctor ∧
    ({ id := 1, patientAddress := "0xp", doctorAddress := "0xd",
       recordIds := [1], duration := Duration.permanent, createdAt := 2 } : Access) ∈
      cascadeState.accessPermissions.map (·.2) ∧
    routeGetRecords cascadeState ⟨"0xD", Role.doctor⟩ "0xp" =
      Except.ok (getMedicalRecordsByPatient cascadeState "0xp") :=
  ⟨rfl, by decide,
   (C9_doctor_sees_all_patient_records cascadeState ⟨"0xD", Role.doctor⟩ "0xp"
      { id := 1, patientAddress := "0xp", doctorAddress := "0xd",
        recordIds := [1], duration := Duration.permanent, createdAt := 2 }
      rfl (by decide) (by decide) (by decide)).1⟩

/-- C10: when some grant of doctor `D` covers record `R` (patient match
case-insensitive and `R.id` among the grant's record ids), the deletion
route lets `D` delete `R` with exactly the same success result and
resulting state as deletion by the owning patient. -/
theorem C10_doctor_delete_equals_patient_delete (st : MemStorage) (i : Nat)
    (R : MedicalRecord) (D : String)
    (hrec : getMedicalRecord st i = some R)
    (hacc : hasAccess st D R.patientAddress R.id = true) :
    routeDeleteRecord st ⟨D, Role.doctor⟩ i =
      (Except.ok (), (deleteMedicalRecord st i).2) ∧
    routeDeleteRecord st ⟨R.patientAddress, Role.patient⟩ i =
      (Except.ok (), (deleteMedicalRecord st i).2) ∧
    (deleteMedicalRecord st i).1 = true := by
  have hrec' : mapGet st.medicalRecords i = some R := hrec
  have hdel : deleteMedicalRecord st i =
      (true, { st with accessPermissions := shrinkAccess st.accessPermissions i,
                       medicalRecords := mapDelete st.medicalRecords i }) := by
    simp only [deleteMedicalRecord, hrec']
  have hacc' : (getAccessByDoctor st D).any (fun access =>
      ciEq access.patientAddress R.patientAddress &&
      access.recordIds.contains R.id) = true := hacc
  refine ⟨?_, ?_, by rw [hdel]⟩
  · simp only [routeDeleteRecord, hrec, hacc', hdel, if_true]
  · simp only [routeDeleteRecord, hrec, hdel, ciEq_refl, if_true]

/-- Witness for C10: doctor `0xD` (covered by a grant listing record 1)
deletes record 1 of patient `0xp`. -/
theorem C10_doctor_delete_equals_patient_delete_witness :
    getMedicalRecord cascadeState 1 = some cascadeRec1 ∧
    hasAccess cascadeState "0xD" cascadeRec1.patientAddress cascadeRec1.id = true ∧
    routeDeleteRecord cascadeState ⟨"0xD", Role.doctor⟩ 1 =
      (Except.ok (), (deleteMedicalRecord cascadeState 1).2) :=
  ⟨by decide, by decide,
   (C10_doctor_delete_equals_patient_delete cascadeState 1 cascadeRec1 "0xD"
      (by decide) (by decide)).1⟩

/-- C8: `save` followed by `load` reproduces the identical users, records
and grants (same entries, same ids), and each next-id counter becomes the
maximum existing id of its collection plus one — where that maximum bounds
every stored id and is attained when the collection is non-empty, and is 0
(counter 1) for an empty collection; an absent data file yields the empty
store with all counters at 1. -/
theorem C8_save_load_roundtrip (st : MemStorage) :
    (loadData (some (saveData st))).users = st.users ∧
    (loadData (some (saveData st))).medicalRecords = st.medicalRecords ∧
    (loadData (some (saveData st))).accessPermissions = st.accessPermissions ∧
    (loadData (some (saveData st))).currentUserId = maxKeys st.users + 1 ∧
    (loadData (some (saveData st))).currentRecordId =
      maxKeys st.medicalRecords + 1 ∧
    (loadData (some (saveData st))).currentAccessId =
      maxKeys st.accessPermissions + 1 ∧
    (∀ p ∈ st.users, p.1 ≤ maxKeys st.users) ∧
    (∀ p ∈ st.medicalRecords, p.1 ≤ maxKeys st.medicalRecords) ∧
    (∀ p ∈ st.accessPermissions, p.1 ≤ maxKeys st.accessPermissions) ∧
    (st.users ≠ [] → ∃ p ∈ st.users, maxKeys st.users = p.1) ∧
    (st.medicalRecords ≠ [] →
      ∃ p ∈ st.medicalRecords, maxKeys st.medicalRecords = p.1) ∧
    (st.accessPermissions ≠ [] →
      ∃ p ∈ st.accessPermissions, maxKeys st.accessPermissions = p.1) ∧
    maxKeys ([] : List (Nat × User)) = 0 ∧
    loadData none = emptyStorage ∧
    emptyStorage.currentUserId = 1 ∧
    emptyStorage.currentRecordId = 1 ∧
    emptyStorage.currentAccessId = 1 :=
  ⟨rfl, rfl, rfl, rfl, rfl, rfl,
   fun _ hp => le_maxKeys hp,
   fun _ hp => le_maxKeys hp,
   fun _ hp => le_maxKeys hp,
   fun h => maxKeys_mem h,
   fun h => maxKeys_mem h,
   fun h => maxKeys_mem h,
   rfl, rfl, rfl, rfl, rfl⟩

/-- C4 is false as stated: the grant-creation HTTP route accepts an empty
record id list (the ownership filter of an empty list is vacuously empty),
so a single route call on the fresh store reaches a state holding a grant
whose recordIds set is empty. -/
theorem C4_counterexample :
    Reachable (applyOp emptyStorage
      (Op.routeGrant ⟨"0xp", Role.patient⟩ "0xd" [] Duration.permanent "0xp" 0)) ∧
    ¬ NoEmptyGrants (applyOp emptyStorage
      (Op.routeGrant ⟨"0xp", Role.patient⟩ "0xd" [] Duration.permanent "0xp" 0)) := by
  constructor
  · exact ⟨[Op.routeGrant ⟨"0xp", Role.patient⟩ "0xd" [] Duration.permanent "0xp" 0],
      rfl⟩
  · intro h
    exact h (1, { id := 1, patientAddress := "0xp", doctorAddress := "0xd",
                  recordIds := [], duration := Duration.permanent, createdAt := 0 })
      (by decide) rfl

/-- One operation preserves the no-empty-grant invariant, provided a grant
creation supplies a non-empty id list. -/
theorem step_no_empty_grants (st : MemStorage) (op : Op)
    (hst : NoEmptyGrants st) (hop : grantIdsNonempty op = true) :
    NoEmptyGrants (applyOp st op) := by
  have hCreate : ∀ (pa da : String) (ids : List Nat) (dur : Duration) (n : Nat),
      ids ≠ [] → NoEmptyGrants (createAccess st pa da ids dur n).2 := by
    intro pa da ids dur n hids p hp
    rcases mem_of_mem_mapSet hp with hmem | rfl
    · exact hst p hmem
    · exact hids
  cases op with
  | createUser a r n => exact hst
  | createRecord r n => exact hst
  | revokeAccess id =>
      intro p hp
      simp only [applyOp, revokeAccess] at hp
      split at hp
      · exact hst p ((List.mem_filter.1 hp).1)
      · exact hst p hp
  | deleteRecord id =>
      intro p hp
      simp only [applyOp, deleteMedicalRecord] at hp
      split at hp
      · exact hst p hp
      · rw [shrinkAccess, List.mem_filterMap] at hp
        obtain ⟨q, hq, hfq⟩ := hp
        by_cases hc : q.2.recordIds.contains id = true
        · rw [if_pos hc] at hfq
          by_cases he : (q.2.recordIds.filter (fun r => r != id)).isEmpty = true
          · rw [if_pos he] at hfq; cases hfq
          · rw [if_neg he] at hfq
            obtain rfl := Option.some.inj hfq
            intro hnil
            apply he
            have hnil' : List.filter (fun r => r != id) q.2.recordIds = [] := hnil
            rw [hnil']
            rfl
        · rw [if_neg hc] at hfq
          obtain rfl := Option.some.inj hfq
          exact hst q hq
  | createAccess pa da ids dur n =>
      have hids : ids ≠ [] := by
        simp only [grantIdsNonempty, Bool.not_eq_true'] at hop
        simpa using hop
      exact hCreate pa da ids dur n hids
  | routeGrant sess da ids dur pa n =>
      have hids : ids ≠ [] := by
        simp only [grantIdsNonempty, Bool.not_eq_true'] at hop
        simpa using hop
      intro p hp
      simp only [applyOp, routeCreateAccess] at hp
      split at hp
      · exact hst p hp
      · split at hp
        · exact hst p hp
        · split at hp
          · exact hst p hp
          · exact hCreate pa da ids dur n hids p hp

/-- C4 (amended): in every state reachable from the fresh store by store
operations and route calls in which every grant creation supplies a
non-empty record id list, no stored grant has an empty recordIds set.  The
restriction is necessary: the grant route itself accepts an empty list and
stores an empty grant. -/
theorem C4_no_empty_grants (ops : List Op)
    (h : ∀ op ∈ ops, grantIdsNonempty op = true) :
    NoEmptyGrants (ops.foldl applyOp emptyStorage) := by
  have key : ∀ (l : List Op) (st : MemStorage), NoEmptyGrants st →
      (∀ op ∈ l, grantIdsNonempty op = true) →
      NoEmptyGrants (l.foldl applyOp st) := by
    intro l
    induction l with
    | nil => intro st hst _; exact hst
    | cons op l ih =>
        intro st hst hops
        rw [List.foldl_cons]
        exact ih _ (step_no_empty_grants st op hst (hops op (List.mem_cons_self _ _)))
          (fun o ho => hops o (List.mem_cons_of_mem _ ho))
  exact key ops emptyStorage (fun p hp => absurd hp (List.not_mem_nil p)) h

/-- Witness for the amended C4: a create-record, route-grant, delete-record
trace with non-empty grant id lists leaves no empty grant. -/
theorem C4_no_empty_grants_witness :
    (∀ op ∈ [Op.createRecord
        { title := "Lab A", recordType := "lab-result", recordDate := "2024-01-01",
          patientAddress := "0xp", filePath := "f", fileHash := "h",
          transactionHash := "x" } 0,
      Op.routeGrant ⟨"0xp", Role.patient⟩ "0xd" [1] Duration.permanent "0xp" 0,
      Op.deleteRecord 1], grantIdsNonempty op = true) ∧
    NoEmptyGrants ([Op.createRecord
        { title := "Lab A", recordType := "lab-result", recordDate := "2024-01-01",
          patientAddress := "0xp", filePath := "f", fileHash := "h",
          transactionHash := "x" } 0,
      Op.routeGrant ⟨"0xp", Role.patient⟩ "0xd" [1] Duration.permanent "0xp" 0,
      Op.deleteRecord 1].foldl applyOp emptyStorage) :=
  ⟨by decide,
   C4_no_empty_grants
     [Op.createRecord
        { title := "Lab A", recordType := "lab-result", recordDate := "2024-01-01",
          patientAddress := "0xp", filePath := "f", fileHash := "h",
          transactionHash := "x" } 0,
      Op.routeGrant ⟨"0xp", Role.patient⟩ "0xd" [1] Duration.permanent "0xp" 0,
      Op.deleteRecord 1] (by decide)⟩

/-- Witness for C8 at a concrete populated store. -/
theorem C8_save_load_roundtrip_witness :
    (loadData (some (saveData cascadeState))).users = cascadeState.users ∧
    (loadData (some (saveData cascadeState))).currentRecordId =
      maxKeys cascadeState.medicalRecords + 1 ∧
    (cascadeState.medicalRecords ≠ [] →
      ∃ p ∈ cascadeState.medicalRecords, maxKeys cascadeState.medicalRecords = p.1) :=
  ⟨(C8_save_load_roundtrip cascadeState).1,
   (C8_save_load_roundtrip cascadeState).2.2.2.2.1,
   (C8_save_load_roundtrip cascadeState).2.2.2.2.2.2.2.2.2.2.1⟩

end HealthRecord
